import Mathlib

set_option maxRecDepth 10000

/-!
Shallow embedding of `src/elements.cpp` (bls-signatures element types):
the G1/G2/GT wire codecs, validity checks, and the operator glue around an
external arithmetic provider (blst/relic).  The provider functions
(`g1_read_bin`, `g1_write_bin`, point arithmetic, membership tests) are not
part of this repository; they are modelled as explicit function parameters,
and the theorems state the codec properties relative to assumptions on them.
Byte strings are `List Nat` with entries below 256.
-/

namespace BLS

/-- Error kinds, one per distinct throw site in elements.cpp, named after the
spec's §7 error taxonomy. -/
inductive DecodeError where
  | InvalidSize
  | NonCanonicalInfinity
  | MalformedHeader
  | MalformedSecondComponent
  | ZeroXNotAllowed
  | InvalidPoint
  | NotInTargetSubgroup
  deriving DecidableEq

instance {ε α : Type} [DecidableEq ε] [DecidableEq α] : DecidableEq (Except ε α) := fun x y =>
  match x, y with
  | .error a, .error b =>
    if h : a = b then .isTrue (by rw [h]) else .isFalse (by intro hc; cases hc; exact h rfl)
  | .error _, .ok _ => .isFalse (by intro hc; cases hc)
  | .ok _, .error _ => .isFalse (by intro hc; cases hc)
  | .ok a, .ok b =>
    if h : a = b then .isTrue (by rw [h]) else .isFalse (by intro hc; cases hc; exact h rfl)

/-- Util::HasOnlyZeros. Modelled from the spec: the helper lives in the
repository's util header, not under src/; per §4.1 it reports whether every
byte of the buffer is zero. -/
def hasOnlyZeros (l : List Nat) : Bool := l.all (fun b => b == 0)

/-- Masking of the first byte of a buffer with 0x1f, as in
`buffer[1] &= 0x1f` applied to the 48-byte (resp. 96-byte) payload copy. -/
def mask0 (l : List Nat) : List Nat :=
  match l with
  | [] => []
  | b :: t => (b &&& 0x1f) :: t

/-- Setting of flag bits on the first byte of a buffer, as in
`buffer[1] |= 0x20` / `buffer[1] |= 0x80`. -/
def setBit0 (m : Nat) (l : List Nat) : List Nat :=
  match l with
  | [] => []
  | b :: t => (b ||| m) :: t

/-- External arithmetic provider interface for the short group: the blst/relic
functions used by elements.cpp (`g1_write_bin` / `g1_read_bin` over 49-byte
compressed buffers, infinity and on-curve tests, the generator constant,
in-place negation `blst_p1_cneg`, addition `blst_p1_add`) together with the
payload of a default-constructed `blst_p1` (the point at infinity). -/
structure G1Provider (P : Type) where
  write_bin : P → List Nat
  read_bin : List Nat → P
  defaultPoint : P
  is_inf : P → Bool
  on_curve : P → Bool
  generator : P
  cneg : P → P
  add : P → P → P

/-- External arithmetic provider interface for the long group, over 97-byte
native buffers (flag byte followed by the two 48-byte extension-field halves
in native order). -/
structure G2Provider (Q : Type) where
  write_bin : Q → List Nat
  read_bin : List Nat → Q
  defaultPoint : Q
  is_inf : Q → Bool
  on_curve : Q → Bool
  generator : Q
  cneg : Q → Q
  add : Q → Q → Q

/-- External arithmetic provider interface for the target group:
`gt_write_bin` / `gt_read_bin` over 576-byte buffers, the subgroup membership
test `blst_fp12_in_group`, the unity constant and field multiplication. -/
structure GTProvider (R : Type) where
  write_bin : R → List Nat
  read_bin : List Nat → R
  in_group : R → Bool
  unity : R
  mul : R → R → R

/-- External pairing computation `pp_map_oatep_k12`, taking the short-group
point first and the long-group point second. -/
structure PairingProvider (P Q R : Type) where
  pair : P → Q → R

/-- G1Element: owns one native short-group point. -/
structure G1Element (P : Type) where
  p : P
  deriving DecidableEq

/-- G2Element: owns one native long-group point. -/
structure G2Element (Q : Type) where
  q : Q
  deriving DecidableEq

/-- GTElement: owns one native target-group field element. -/
structure GTElement (R : Type) where
  r : R
  deriving DecidableEq

/-- G1Element::FromBytesUnchecked (elements.cpp lines 30-69): size check,
copy into a 49-byte buffer with the three flag bits of the first payload byte
erased, canonical-infinity and header checks, then `g1_read_bin` with the
buffer's lead byte set to 0x02/0x03 according to the sign flag. -/
def G1FromBytesUnchecked {P : Type} (prov : G1Provider P) (bytes : List Nat) :
    Except DecodeError (G1Element P) :=
  if bytes.length ≠ 48 then .error .InvalidSize
  else
    if bytes.headD 0 &&& 0xc0 = 0xc0 then
      if bytes.headD 0 ≠ 0xc0 ∨ hasOnlyZeros (0x00 :: mask0 bytes) = false then
        .error .NonCanonicalInfinity
      else .ok ⟨prov.defaultPoint⟩
    else
      if bytes.headD 0 &&& 0xc0 ≠ 0x80 then .error .MalformedHeader
      else if hasOnlyZeros (0x00 :: mask0 bytes) then .error .ZeroXNotAllowed
      else
        .ok ⟨prov.read_bin
          ((if bytes.headD 0 &&& 0x20 ≠ 0 then 0x03 else 0x02) :: mask0 bytes)⟩

/-- G1Element::IsValid (lines 109-116): infinity is always valid, otherwise
the provider's on-curve test decides. -/
def G1IsValid {P : Type} (prov : G1Provider P) (e : G1Element P) : Bool :=
  if prov.is_inf e.p then true else prov.on_curve e.p

/-- G1Element::FromBytes (lines 24-28): unchecked decode then CheckValid. -/
def G1FromBytes {P : Type} (prov : G1Provider P) (bytes : List Nat) :
    Except DecodeError (G1Element P) :=
  match G1FromBytesUnchecked prov bytes with
  | .error e => .error e
  | .ok ele => if G1IsValid prov ele then .ok ele else .error .InvalidPoint

/-- G1Element::FromNative (lines 76-81): builds a fresh element holding a copy
of the given native point; it does not modify any existing element. -/
def G1FromNative {P : Type} (element : P) : G1Element P := ⟨element⟩

/-- G1Element::Generator (lines 100-107). The source reads
`G1Element ele; const blst_p1 *gen1 = blst_p1_generator(); ele.FromNative(*gen1);
return ele;` — FromNative returns a new element and its result is discarded,
so the returned element keeps the default payload. -/
def G1Generator {P : Type} (prov : G1Provider P) : G1Element P :=
  let ele : G1Element P := ⟨prov.defaultPoint⟩
  let _ : G1Element P := G1FromNative prov.generator
  ele

/-- G1Element::Negate (lines 127-133). The source reads
`G1Element ans; ans.FromNative(p); blst_p1_cneg(&(ans.p), true); return ans;` —
the result of `ans.FromNative(p)` is discarded, so `ans` keeps the default
payload and `blst_p1_cneg` negates that in place. -/
def G1Negate {P : Type} (prov : G1Provider P) (e : G1Element P) : G1Element P :=
  let ans : G1Element P := ⟨prov.defaultPoint⟩
  let _ : G1Element P := G1FromNative e.p
  ⟨prov.cneg ans.p⟩

/-- G1Element::Serialize (lines 146-162): `g1_write_bin` into a 49-byte
compressed buffer; lead byte 0x00 means infinity and yields the canonical
0xc0-followed-by-zeros encoding, otherwise the sign and compression bits are
folded into the first payload byte. -/
def G1Serialize {P : Type} (prov : G1Provider P) (e : G1Element P) : List Nat :=
  if (prov.write_bin e.p).headD 0 = 0x00 then 0xc0 :: List.replicate 47 0
  else
    setBit0 0x80
      (if (prov.write_bin e.p).headD 0 = 0x03 then
        setBit0 0x20 (prov.write_bin e.p).tail
      else (prov.write_bin e.p).tail)

/-- operator==(G1Element, G1Element) (lines 164-167): memcmp of the two
native payloads. -/
def G1eqOp {P : Type} [DecidableEq P] (a b : G1Element P) : Bool := a.p == b.p

/-- operator+(G1Element, G1Element) (lines 182-187): blst_p1_add. -/
def G1addOp {P : Type} (prov : G1Provider P) (a b : G1Element P) : G1Element P :=
  ⟨prov.add a.p b.p⟩

/-- Native buffer synthesized by G2Element::FromBytesUnchecked (lines
223-227): flag byte 0, then the wire's second half, then the wire's first
half with its three flag bits erased. -/
def g2buffer (bytes : List Nat) : List Nat :=
  0x00 :: (bytes.drop 48 ++ mask0 (bytes.take 48))

/-- G2Element::FromBytesUnchecked (lines 216-260): size check, half-swapped
copy into a 97-byte buffer, the wire's byte 48 must have its top three bits
clear, then canonical-infinity and header checks as for G1, then
`g2_read_bin`. -/
def G2FromBytesUnchecked {Q : Type} (prov : G2Provider Q) (bytes : List Nat) :
    Except DecodeError (G2Element Q) :=
  if bytes.length ≠ 96 then .error .InvalidSize
  else
    if bytes.getD 48 0 &&& 0xe0 ≠ 0 then .error .MalformedSecondComponent
    else
      if bytes.headD 0 &&& 0xc0 = 0xc0 then
        if bytes.headD 0 ≠ 0xc0 ∨ hasOnlyZeros (g2buffer bytes) = false then
          .error .NonCanonicalInfinity
        else .ok ⟨prov.defaultPoint⟩
      else
        if bytes.headD 0 &&& 0xc0 ≠ 0x80 then .error .MalformedHeader
        else if hasOnlyZeros (g2buffer bytes) then .error .ZeroXNotAllowed
        else
          .ok ⟨prov.read_bin
            ((if bytes.headD 0 &&& 0x20 ≠ 0 then 0x03 else 0x02) ::
              (bytes.drop 48 ++ mask0 (bytes.take 48)))⟩

/-- G2Element::IsValid (lines 299-306). -/
def G2IsValid {Q : Type} (prov : G2Provider Q) (e : G2Element Q) : Bool :=
  if prov.is_inf e.q then true else prov.on_curve e.q

/-- G2Element::FromBytes (lines 210-214): unchecked decode then CheckValid. -/
def G2FromBytes {Q : Type} (prov : G2Provider Q) (bytes : List Nat) :
    Except DecodeError (G2Element Q) :=
  match G2FromBytesUnchecked prov bytes with
  | .error e => .error e
  | .ok ele => if G2IsValid prov ele then .ok ele else .error .InvalidPoint

/-- G2Element::FromNative (lines 267-272). -/
def G2FromNative {Q : Type} (element : Q) : G2Element Q := ⟨element⟩

/-- G2Element::Generator (lines 291-297): as for G1, the result of
`ele.FromNative(*gen2)` is discarded, so the default payload is returned. -/
def G2Generator {Q : Type} (prov : G2Provider Q) : G2Element Q :=
  let ele : G2Element Q := ⟨prov.defaultPoint⟩
  let _ : G2Element Q := G2FromNative prov.generator
  ele

/-- G2Element::Negate (lines 317-323): as for G1, `ans.FromNative(q)` is
discarded; `blst_p2_cneg` negates the default payload in place. -/
def G2Negate {Q : Type} (prov : G2Provider Q) (e : G2Element Q) : G2Element Q :=
  let ans : G2Element Q := ⟨prov.defaultPoint⟩
  let _ : G2Element Q := G2FromNative e.q
  ⟨prov.cneg ans.q⟩

/-- G2Element::Serialize (lines 327-351): `g2_write_bin` into a 97-byte
buffer; infinity yields the canonical encoding; otherwise both halves have
their top three bits stripped, the flags are set on the byte at native
position 49, and the two halves are swapped into wire order. -/
def G2Serialize {Q : Type} (prov : G2Provider Q) (e : G2Element Q) : List Nat :=
  if (prov.write_bin e.q).headD 0 = 0x00 then 0xc0 :: List.replicate 95 0
  else
    (if (prov.write_bin e.q).headD 0 = 0x03 then
      setBit0 0xa0 (mask0 ((prov.write_bin e.q).tail.drop 48))
    else setBit0 0x80 (mask0 ((prov.write_bin e.q).tail.drop 48))) ++
      mask0 ((prov.write_bin e.q).tail.take 48)

/-- operator==(G2Element, G2Element) (lines 353-356). The source calls
`memcpy((blst_p2*)&(a.q), (blst_p2*)&(b.q), sizeof(blst_p2)) == 0`: memcpy
copies b's payload into a and returns the destination pointer, which for a
live object is never null, so the comparison with 0 yields false. The result
models the pair (left operand after the call, returned boolean). -/
def G2eqOp {Q : Type} (a b : G2Element Q) : G2Element Q × Bool :=
  (⟨b.q⟩, false)

/-- operator+(G2Element, G2Element) (lines 371-376): blst_p2_add. -/
def G2addOp {Q : Type} (prov : G2Provider Q) (a b : G2Element Q) : G2Element Q :=
  ⟨prov.add a.q b.q⟩

/-- GTElement::FromBytesUnchecked (lines 405-413): size check then
`gt_read_bin`, with no membership test. -/
def GTFromBytesUnchecked {R : Type} (prov : GTProvider R) (bytes : List Nat) :
    Except DecodeError (GTElement R) :=
  if bytes.length ≠ 576 then .error .InvalidSize
  else .ok ⟨prov.read_bin bytes⟩

/-- GTElement::FromBytes (lines 397-403): unchecked decode then
`blst_fp12_in_group`. -/
def GTFromBytes {R : Type} (prov : GTProvider R) (bytes : List Nat) :
    Except DecodeError (GTElement R) :=
  match GTFromBytesUnchecked prov bytes with
  | .error e => .error e
  | .ok ele => if prov.in_group ele.r then .ok ele else .error .NotInTargetSubgroup

/-- GTElement::Serialize (lines 464-474): direct `gt_write_bin`. -/
def GTSerialize {R : Type} (prov : GTProvider R) (e : GTElement R) : List Nat :=
  prov.write_bin e.r

/-- GTElement::Unity (lines 427-431). -/
def GTUnity {R : Type} (prov : GTProvider R) : GTElement R := ⟨prov.unity⟩

/-- operator&(G1Element, G2Element) (lines 446-455): copies both operands and
computes `pp_map_oatep_k12` with the G1 point as first argument and the G2
point as second. -/
def pairOp {P Q R : Type} (pp : PairingProvider P Q R)
    (a : G1Element P) (b : G2Element Q) : GTElement R :=
  ⟨pp.pair a.p b.q⟩

/-- G1Element::Pair (line 135): `return (*this) & b`. -/
def G1Pair {P Q R : Type} (pp : PairingProvider P Q R)
    (a : G1Element P) (b : G2Element Q) : GTElement R := pairOp pp a b

/-- G2Element::Pair (line 325): `return a & (*this)`. -/
def G2Pair {P Q R : Type} (pp : PairingProvider P Q R)
    (b : G2Element Q) (a : G1Element P) : GTElement R := pairOp pp a b

/-- Well-formedness of the 48-byte payload of a compressed non-infinity G1
native buffer: 48 bytes, top three bits of the first byte clear, not all
zero.  This is what the decoder hands to `g1_read_bin` after the flag byte. -/
def G1WfTail (l : List Nat) : Prop :=
  l.length = 48 ∧ l.headD 0 < 0x20 ∧ hasOnlyZeros l = false

instance (l : List Nat) : Decidable (G1WfTail l) := by
  unfold G1WfTail; infer_instance

/-- Well-formedness of a full 49-byte buffer handed to `g1_read_bin` by the
decoder in the non-infinity case. -/
def G1WfBuf (l : List Nat) : Prop :=
  (l.headD 0 = 0x02 ∨ l.headD 0 = 0x03) ∧ l.length = 49 ∧ G1WfTail l.tail

/-- Well-formedness of the 96-byte payload of a non-infinity G2 native
buffer: both 48-byte halves have the top three bits of their first byte
clear, and the payload is not all zero. -/
def G2WfTail (l : List Nat) : Prop :=
  l.length = 96 ∧ l.headD 0 < 0x20 ∧ (l.drop 48).headD 0 < 0x20 ∧
    hasOnlyZeros l = false

instance (l : List Nat) : Decidable (G2WfTail l) := by
  unfold G2WfTail; infer_instance

/-- Well-formedness of a full 97-byte buffer handed to `g2_read_bin` by the
decoder in the non-infinity case. -/
def G2WfBuf (l : List Nat) : Prop :=
  (l.headD 0 = 0x02 ∨ l.headD 0 = 0x03) ∧ l.length = 97 ∧ G2WfTail l.tail

/-- Concrete point type instantiating the short-group provider for witness
computations: `none` is the point at infinity, a finite point stores its sign
and its well-formed compressed payload. -/
abbrev ToyP1 : Type := Option (Bool × {l : List Nat // G1WfTail l})

/-- Concrete point type instantiating the long-group provider. -/
abbrev ToyP2 : Type := Option (Bool × {l : List Nat // G2WfTail l})

/-- Concrete field-element type instantiating the target-group provider. -/
abbrev ToyPT : Type := {l : List Nat // l.length = 576}

/-- Concrete nonzero 48-byte payload used by the toy providers. -/
def toyXbytes48 : List Nat := List.replicate 47 0 ++ [1]

/-- Concrete nonzero 96-byte payload used by the toy providers. -/
def toyXbytes96 : List Nat :=
  (List.replicate 47 0 ++ [1]) ++ (List.replicate 47 0 ++ [1])

/-- Concrete instantiation of the short-group arithmetic provider. -/
def toyG1 : G1Provider ToyP1 where
  write_bin p :=
    match p with
    | none => 0x00 :: List.replicate 48 0
    | some (s, xb) => (if s then 0x03 else 0x02) :: xb.val
  read_bin l :=
    match l with
    | [] => none
    | c :: rest =>
      if c = 0 then none
      else if h : G1WfTail rest then some (c == 0x03, ⟨rest, h⟩) else none
  defaultPoint := none
  is_inf p := p.isNone
  on_curve _ := true
  generator := some (false, ⟨toyXbytes48, by decide⟩)
  cneg p := p.map (fun sp => (!sp.1, sp.2))
  add p q :=
    match p, q with
    | none, q => q
    | p, none => p
    | some a, some b => if a = b then none else some a

/-- Concrete instantiation of the long-group arithmetic provider. -/
def toyG2 : G2Provider ToyP2 where
  write_bin p :=
    match p with
    | none => 0x00 :: List.replicate 96 0
    | some (s, xb) => (if s then 0x03 else 0x02) :: xb.val
  read_bin l :=
    match l with
    | [] => none
    | c :: rest =>
      if c = 0 then none
      else if h : G2WfTail rest then some (c == 0x03, ⟨rest, h⟩) else none
  defaultPoint := none
  is_inf p := p.isNone
  on_curve _ := true
  generator := some (false, ⟨toyXbytes96, by decide⟩)
  cneg p := p.map (fun sp => (!sp.1, sp.2))
  add p q :=
    match p, q with
    | none, q => q
    | p, none => p
    | some a, some b => if a = b then none else some a

/-- Concrete instantiation of the target-group provider.  The membership
test accepts an element exactly when its first byte is zero. -/
def toyGT : GTProvider ToyPT where
  write_bin r := r.val
  read_bin l := if h : l.length = 576 then ⟨l, h⟩ else ⟨List.replicate 576 0, by rw [List.length_replicate]⟩
  in_group r := r.val.headD 0 == 0
  unity := ⟨List.replicate 576 0, by rw [List.length_replicate]⟩
  mul r _ := r

/-- Concrete non-infinity toy G1 point. -/
def toyG1Pt : ToyP1 := some (false, ⟨toyXbytes48, by decide⟩)

/-- Concrete non-infinity toy G1 element. -/
def toyG1Elt : G1Element ToyP1 := ⟨toyG1Pt⟩

/-- Concrete non-infinity toy G2 point. -/
def toyG2Pt : ToyP2 := some (false, ⟨toyXbytes96, by decide⟩)

/-- Second concrete toy G2 point, distinct from `toyG2Pt`. -/
def toyG2PtB : ToyP2 := some (true, ⟨toyXbytes96, by decide⟩)

/-- Concrete non-infinity toy G2 element. -/
def toyG2Elt : G2Element ToyP2 := ⟨toyG2Pt⟩

/-- Second concrete toy G2 element, distinct from `toyG2Elt`. -/
def toyG2EltB : G2Element ToyP2 := ⟨toyG2PtB⟩

/-- Concrete toy GT element, accepted by the toy membership test. -/
def toyGTElt : GTElement ToyPT := ⟨⟨List.replicate 576 0, by rw [List.length_replicate]⟩⟩

/-- Correctness assumptions on the external short-group provider, all of them
properties of blst/relic that elements.cpp relies on: `g1_write_bin` emits a
49-byte compressed buffer whose lead byte is 0x00 (infinity, exactly for the
default payload), 0x02 or 0x03; a non-infinity payload is nonzero with the top
three bits of its first byte clear (the x-coordinate has 381 bits); and
`g1_read_bin` inverts `g1_write_bin`. -/
structure G1ProviderOK {P : Type} (prov : G1Provider P) : Prop where
  len : ∀ p, (prov.write_bin p).length = 49
  head_cases : ∀ p, (prov.write_bin p).headD 0 = 0x00 ∨
    (prov.write_bin p).headD 0 = 0x02 ∨ (prov.write_bin p).headD 0 = 0x03
  inf_iff : ∀ p, ((prov.write_bin p).headD 0 = 0x00 ↔ p = prov.defaultPoint)
  top3 : ∀ p, (prov.write_bin p).headD 0 ≠ 0x00 →
    (prov.write_bin p).tail.headD 0 < 0x20
  nonzero : ∀ p, (prov.write_bin p).headD 0 ≠ 0x00 →
    hasOnlyZeros (prov.write_bin p).tail = false
  rt : ∀ p, prov.read_bin (prov.write_bin p) = p

/-- Correctness assumptions on the external long-group provider, mirroring
`G1ProviderOK` over 97-byte buffers; both 48-byte halves of a non-infinity
payload have the top three bits of their first byte clear. -/
structure G2ProviderOK {Q : Type} (prov : G2Provider Q) : Prop where
  len : ∀ p, (prov.write_bin p).length = 97
  head_cases : ∀ p, (prov.write_bin p).headD 0 = 0x00 ∨
    (prov.write_bin p).headD 0 = 0x02 ∨ (prov.write_bin p).headD 0 = 0x03
  inf_iff : ∀ p, ((prov.write_bin p).headD 0 = 0x00 ↔ p = prov.defaultPoint)
  top3a : ∀ p, (prov.write_bin p).headD 0 ≠ 0x00 →
    (prov.write_bin p).tail.headD 0 < 0x20
  top3b : ∀ p, (prov.write_bin p).headD 0 ≠ 0x00 →
    ((prov.write_bin p).tail.drop 48).headD 0 < 0x20
  nonzero : ∀ p, (prov.write_bin p).headD 0 ≠ 0x00 →
    hasOnlyZeros (prov.write_bin p).tail = false
  rt : ∀ p, prov.read_bin (prov.write_bin p) = p

/-- Concrete 48-byte G1 counterexample input for the infinity-flag claim:
bit 6 of byte 0 set, compression bit clear, nonzero payload. -/
def c4G1bytes : List Nat := 0x40 :: 0x01 :: List.replicate 46 0

/-- Concrete 96-byte G2 counterexample input for the infinity-flag claim:
byte 0 is 0xc0 and the payload is nonzero, with byte 48 carrying a set top
bit. -/
def c4G2bytes : List Nat :=
  0xc0 :: (List.replicate 47 0 ++ (0x20 :: 0x01 :: List.replicate 46 0))

/-- Concrete decodable 48-byte G1 input. -/
def c3G1bytes : List Nat := 0x80 :: (List.replicate 46 0 ++ [1])

/-- Concrete decodable 96-byte G2 input. -/
def c3G2bytes : List Nat :=
  (0x80 :: (List.replicate 46 0 ++ [1])) ++ List.replicate 48 0

/-- Concrete 576-byte GT input accepted by the toy membership test. -/
def gtBytesIn : List Nat := List.replicate 576 0

/-- Concrete 576-byte GT input rejected by the toy membership test. -/
def gtBytesOut : List Nat := 1 :: List.replicate 575 0

theorem cons_headD_tail {l : List Nat} (h : l ≠ []) : l.headD 0 :: l.tail = l := by
  cases l with
  | nil => exact absurd rfl h
  | cons a t => rfl

theorem mask0_length (l : List Nat) : (mask0 l).length = l.length := by
  cases l <;> simp [mask0]

theorem mask0_cons (b : Nat) (t : List Nat) : mask0 (b :: t) = (b &&& 0x1f) :: t := rfl

theorem setBit0_cons (m b : Nat) (t : List Nat) : setBit0 m (b :: t) = (b ||| m) :: t := rfl

theorem hasOnlyZeros_cons (a : Nat) (l : List Nat) :
    hasOnlyZeros (a :: l) = ((a == 0) && hasOnlyZeros l) := by
  simp [hasOnlyZeros]

theorem hasOnlyZeros_append (l₁ l₂ : List Nat) :
    hasOnlyZeros (l₁ ++ l₂) = (hasOnlyZeros l₁ && hasOnlyZeros l₂) := by
  simp [hasOnlyZeros]

theorem hasOnlyZeros_zero_cons (l : List Nat) :
    hasOnlyZeros (0 :: l) = hasOnlyZeros l := by
  simp [hasOnlyZeros]

theorem hasOnlyZeros_eq_replicate {l : List Nat} (h : hasOnlyZeros l = true) :
    l = List.replicate l.length 0 := by
  simp only [hasOnlyZeros, List.all_eq_true, beq_iff_eq] at h
  rw [List.eq_replicate_iff]
  exact ⟨rfl, h⟩

theorem hasOnlyZeros_replicate (n : Nat) : hasOnlyZeros (List.replicate n 0) = true := by
  simp [hasOnlyZeros]

theorem and31_lt (n : Nat) : n &&& 0x1f < 0x20 :=
  Nat.lt_succ_of_le Nat.and_le_right

theorem and31_of_lt {b : Nat} (h : b < 0x20) : b &&& 0x1f = b := by
  conv_rhs => rw [← Nat.mod_eq_of_lt h]
  exact Nat.and_pow_two_sub_one_eq_mod b 5

theorem mask0_of_headD_lt {l : List Nat} (h : l.headD 0 < 0x20) : mask0 l = l := by
  cases l with
  | nil => rfl
  | cons b t =>
    rw [mask0_cons, and31_of_lt (by simpa using h)]

theorem headD_take48 (l : List Nat) : (l.take 48).headD 0 = l.headD 0 := by
  cases l <;> rfl

theorem getD_append_len {l₁ l₂ : List Nat} {n : Nat} (h : l₁.length = n) :
    (l₁ ++ l₂).getD n 0 = l₂.headD 0 := by
  induction l₁ generalizing n with
  | nil =>
    subst h
    cases l₂ <;> rfl
  | cons a t ih =>
    subst h
    show (t ++ l₂).getD t.length 0 = l₂.headD 0
    exact ih rfl

theorem take_append_len {l₁ l₂ : List Nat} (h : l₁.length = 48) :
    (l₁ ++ l₂).take 48 = l₁ := by
  rw [← h]
  exact List.take_left l₁ l₂

theorem drop_append_len {l₁ l₂ : List Nat} (h : l₁.length = 48) :
    (l₁ ++ l₂).drop 48 = l₂ := by
  rw [← h]
  exact List.drop_left l₁ l₂

theorem flagBits : ∀ h, h < 32 →
    ((h ||| 0x80) &&& 0xc0 = 0x80) ∧ ((h ||| 0x20 ||| 0x80) &&& 0xc0 = 0x80) ∧
    ((h ||| 0x80) &&& 0x1f = h) ∧ ((h ||| 0x20 ||| 0x80) &&& 0x1f = h) ∧
    ((h ||| 0x80) &&& 0x20 = 0) ∧ ((h ||| 0x20 ||| 0x80) &&& 0x20 ≠ 0) ∧
    ((h ||| 0xa0) &&& 0xc0 = 0x80) ∧ ((h ||| 0xa0) &&& 0x1f = h) ∧
    ((h ||| 0xa0) &&& 0x20 ≠ 0) ∧ (h &&& 0xe0 = 0) ∧
    ((h ||| 0x80) ≠ 0) ∧ ((h ||| 0x20 ||| 0x80) ≠ 0) ∧ ((h ||| 0xa0) ≠ 0) := by
  decide

theorem byte_decomp : ∀ n, n < 256 → n &&& 0xc0 = 0x80 →
    n = 0x80 ||| (n &&& 0x20) ||| (n &&& 0x1f) := by
  decide

theorem and20_cases : ∀ n, n < 256 → (n &&& 0x20 = 0 ∨ n &&& 0x20 = 0x20) := by
  decide

theorem ande0_lt : ∀ n, n < 256 → n &&& 0xe0 = 0 → n < 0x20 := by
  decide

theorem toyG1_ok : G1ProviderOK toyG1 := by
  constructor
  · intro p
    match p with
    | none => rfl
    | some (s, xb) =>
      show ((if s then 0x03 else 0x02) :: xb.val).length = 49
      have := xb.property.1
      simp [this]
  · intro p
    match p with
    | none => exact Or.inl rfl
    | some (s, xb) =>
      cases s
      · exact Or.inr (Or.inl rfl)
      · exact Or.inr (Or.inr rfl)
  · intro p
    match p with
    | none => simp [toyG1]
    | some (s, xb) =>
      constructor
      · intro h
        cases s <;> simp [toyG1] at h
      · intro h
        simp [toyG1] at h
  · intro p h
    match p with
    | none => exact absurd rfl h
    | some (s, xb) =>
      show (((if s then 0x03 else 0x02) :: xb.val).tail).headD 0 < 0x20
      simpa using xb.property.2.1
  · intro p h
    match p with
    | none => exact absurd rfl h
    | some (s, xb) =>
      show hasOnlyZeros (((if s then 0x03 else 0x02) :: xb.val).tail) = false
      simpa using xb.property.2.2
  · intro p
    match p with
    | none => rfl
    | some (s, xb) =>
      show toyG1.read_bin ((if s then 0x03 else 0x02) :: xb.val) = some (s, xb)
      cases s
      · show toyG1.read_bin (0x02 :: xb.val) = some (false, xb)
        simp only [toyG1]
        rw [if_neg (by decide), dif_pos xb.property]
        rfl
      · show toyG1.read_bin (0x03 :: xb.val) = some (true, xb)
        simp only [toyG1]
        rw [if_neg (by decide), dif_pos xb.property]
        rfl

theorem toyG2_ok : G2ProviderOK toyG2 := by
  constructor
  · intro p
    match p with
    | none => rfl
    | some (s, xb) =>
      show ((if s then 0x03 else 0x02) :: xb.val).length = 97
      have := xb.property.1
      simp [this]
  · intro p
    match p with
    | none => exact Or.inl rfl
    | some (s, xb) =>
      cases s
      · exact Or.inr (Or.inl rfl)
      · exact Or.inr (Or.inr rfl)
  · intro p
    match p with
    | none => simp [toyG2]
    | some (s, xb) =>
      constructor
      · intro h
        cases s <;> simp [toyG2] at h
      · intro h
        simp [toyG2] at h
  · intro p h
    match p with
    | none => exact absurd rfl h
    | some (s, xb) =>
      show (((if s then 0x03 else 0x02) :: xb.val).tail).headD 0 < 0x20
      simpa using xb.property.2.1
  · intro p h
    match p with
    | none => exact absurd rfl h
    | some (s, xb) =>
      show ((((if s then 0x03 else 0x02) :: xb.val).tail).drop 48).headD 0 < 0x20
      simpa using xb.property.2.2.1
  · intro p h
    match p with
    | none => exact absurd rfl h
    | some (s, xb) =>
      show hasOnlyZeros (((if s then 0x03 else 0x02) :: xb.val).tail) = false
      simpa using xb.property.2.2.2
  · intro p
    match p with
    | none => rfl
    | some (s, xb) =>
      show toyG2.read_bin ((if s then 0x03 else 0x02) :: xb.val) = some (s, xb)
      cases s
      · show toyG2.read_bin (0x02 :: xb.val) = some (false, xb)
        simp only [toyG2]
        rw [if_neg (by decide), dif_pos xb.property]
        rfl
      · show toyG2.read_bin (0x03 :: xb.val) = some (true, xb)
        simp only [toyG2]
        rw [if_neg (by decide), dif_pos xb.property]
        rfl

theorem toyGT_len : ∀ r, (toyGT.write_bin r).length = 576 := fun r => r.property

theorem toyGT_rt : ∀ r, toyGT.read_bin (toyGT.write_bin r) = r := by
  intro r
  show toyGT.read_bin r.val = r
  simp only [toyGT]
  rw [dif_pos r.property]

theorem mask0_headD_lt (l : List Nat) : (mask0 l).headD 0 < 0x20 := by
  cases l with
  | nil => decide
  | cons b t => exact and31_lt b

theorem headD_drop (l : List Nat) (n : Nat) : (l.drop n).headD 0 = l.getD n 0 := by
  induction l generalizing n with
  | nil => cases n <;> rfl
  | cons a t ih =>
    cases n with
    | zero => rfl
    | succ m => exact ih m

theorem headD_append_ne_nil {l₁ : List Nat} (l₂ : List Nat) (h : l₁ ≠ []) :
    (l₁ ++ l₂).headD 0 = l₁.headD 0 := by
  cases l₁ with
  | nil => exact absurd rfl h
  | cons a t => rfl

theorem byte_head_eq {a₁ a₂ : Nat} (ha₁ : a₁ < 256) (ha₂ : a₂ < 256)
    (hc₁ : a₁ &&& 0xc0 = 0x80) (hc₂ : a₂ &&& 0xc0 = 0x80)
    (hlow : a₁ &&& 0x1f = a₂ &&& 0x1f)
    (hif : (if a₁ &&& 0x20 ≠ 0 then (0x03 : Nat) else 0x02) =
      (if a₂ &&& 0x20 ≠ 0 then (0x03 : Nat) else 0x02)) :
    a₁ = a₂ := by
  have h20 : a₁ &&& 0x20 = a₂ &&& 0x20 := by
    rcases and20_cases a₁ ha₁ with h | h <;> rcases and20_cases a₂ ha₂ with g | g
    · rw [h, g]
    · rw [h, g] at hif
      exact absurd hif (by decide)
    · rw [h, g] at hif
      exact absurd hif (by decide)
    · rw [h, g]
  rw [byte_decomp a₁ ha₁ hc₁, byte_decomp a₂ ha₂ hc₂, hlow, h20]

theorem canonical_inf_bytes_g1 {bytes : List Nat} (hlen : bytes.length = 48)
    (hhead : bytes.headD 0 = 0xc0)
    (hz : hasOnlyZeros (0x00 :: mask0 bytes) = true) :
    bytes = 0xc0 :: List.replicate 47 0 := by
  cases bytes with
  | nil => exact absurd hlen (by decide)
  | cons b t =>
    simp only [List.headD_cons] at hhead
    subst hhead
    rw [mask0_cons, show (0xc0 : Nat) &&& 0x1f = 0 from by decide,
      hasOnlyZeros_zero_cons, hasOnlyZeros_zero_cons] at hz
    have hrep := hasOnlyZeros_eq_replicate hz
    have htl : t.length = 47 := by simpa using hlen
    rw [htl] at hrep
    rw [hrep]

theorem canonical_inf_bytes_g2 {bytes : List Nat} (hlen : bytes.length = 96)
    (hhead : bytes.headD 0 = 0xc0)
    (hz : hasOnlyZeros (g2buffer bytes) = true) :
    bytes = 0xc0 :: List.replicate 95 0 := by
  cases bytes with
  | nil => exact absurd hlen (by decide)
  | cons b t =>
    simp only [List.headD_cons] at hhead
    subst hhead
    unfold g2buffer at hz
    rw [hasOnlyZeros_zero_cons, hasOnlyZeros_append, Bool.and_eq_true] at hz
    obtain ⟨hzd, hzt⟩ := hz
    have htl : t.length = 95 := by simpa using hlen
    have hdrop : List.drop 48 (0xc0 :: t) = t.drop 47 := rfl
    have htake : List.take 48 (0xc0 :: t) = 0xc0 :: t.take 47 := rfl
    rw [hdrop] at hzd
    rw [htake, mask0_cons, show (0xc0 : Nat) &&& 0x1f = 0 from by decide,
      hasOnlyZeros_zero_cons] at hzt
    have hd := hasOnlyZeros_eq_replicate hzd
    have ht := hasOnlyZeros_eq_replicate hzt
    rw [List.length_drop, htl] at hd
    rw [List.length_take, htl] at ht
    have hsplit : t = t.take 47 ++ t.drop 47 := (List.take_append_drop 47 t).symm
    rw [hsplit, ht, hd]
    show (0xc0 : Nat) :: (List.replicate (min 47 95) 0 ++ List.replicate (95 - 47) 0) =
      0xc0 :: List.replicate 95 0
    rw [show min 47 95 = 47 from by decide, show 95 - 47 = 48 from by decide,
      ← List.replicate_add]

theorem g1_decode_ok_cases {P : Type} (prov : G1Provider P) {bytes : List Nat}
    {e : G1Element P} (h : G1FromBytesUnchecked prov bytes = .ok e) :
    (bytes = 0xc0 :: List.replicate 47 0 ∧ e = ⟨prov.defaultPoint⟩) ∨
    (bytes.length = 48 ∧ bytes.headD 0 &&& 0xc0 = 0x80 ∧
     hasOnlyZeros (0x00 :: mask0 bytes) = false ∧
     e = ⟨prov.read_bin
       ((if bytes.headD 0 &&& 0x20 ≠ 0 then 0x03 else 0x02) :: mask0 bytes)⟩) := by
  unfold G1FromBytesUnchecked at h
  by_cases hA : bytes.length ≠ 48
  · rw [if_pos hA] at h
    exact absurd h (by simp)
  rw [if_neg hA] at h
  push_neg at hA
  by_cases hB : bytes.headD 0 &&& 0xc0 = 0xc0
  · rw [if_pos hB] at h
    by_cases hC : bytes.headD 0 ≠ 0xc0 ∨ hasOnlyZeros (0x00 :: mask0 bytes) = false
    · rw [if_pos hC] at h
      exact absurd h (by simp)
    rw [if_neg hC] at h
    push_neg at hC
    obtain ⟨hc0, hzt⟩ := hC
    have hz : hasOnlyZeros (0x00 :: mask0 bytes) = true := by
      cases hcase : hasOnlyZeros (0x00 :: mask0 bytes)
      · exact absurd hcase hzt
      · rfl
    left
    refine ⟨canonical_inf_bytes_g1 hA hc0 hz, ?_⟩
    simpa using h.symm
  rw [if_neg hB] at h
  by_cases hD : bytes.headD 0 &&& 0xc0 ≠ 0x80
  · rw [if_pos hD] at h
    exact absurd h (by simp)
  rw [if_neg hD] at h
  push_neg at hD
  by_cases hE : hasOnlyZeros (0x00 :: mask0 bytes) = true
  · rw [if_pos hE] at h
    exact absurd h (by simp)
  rw [if_neg hE] at h
  have hz : hasOnlyZeros (0x00 :: mask0 bytes) = false := by
    cases hcase : hasOnlyZeros (0x00 :: mask0 bytes)
    · rfl
    · exact absurd hcase hE
  right
  refine ⟨hA, hD, hz, ?_⟩
  simpa using h.symm

theorem g2_decode_ok_cases {Q : Type} (prov : G2Provider Q) {bytes : List Nat}
    {e : G2Element Q} (h : G2FromBytesUnchecked prov bytes = .ok e) :
    (bytes = 0xc0 :: List.replicate 95 0 ∧ e = ⟨prov.defaultPoint⟩) ∨
    (bytes.length = 96 ∧ bytes.getD 48 0 &&& 0xe0 = 0 ∧
     bytes.headD 0 &&& 0xc0 = 0x80 ∧ hasOnlyZeros (g2buffer bytes) = false ∧
     e = ⟨prov.read_bin
       ((if bytes.headD 0 &&& 0x20 ≠ 0 then 0x03 else 0x02) ::
         (bytes.drop 48 ++ mask0 (bytes.take 48)))⟩) := by
  unfold G2FromBytesUnchecked at h
  by_cases hA : bytes.length ≠ 96
  · rw [if_pos hA] at h
    exact absurd h (by simp)
  rw [if_neg hA] at h
  push_neg at hA
  by_cases hW : bytes.getD 48 0 &&& 0xe0 ≠ 0
  · rw [if_pos hW] at h
    exact absurd h (by simp)
  rw [if_neg hW] at h
  push_neg at hW
  by_cases hB : bytes.headD 0 &&& 0xc0 = 0xc0
  · rw [if_pos hB] at h
    by_cases hC : bytes.headD 0 ≠ 0xc0 ∨ hasOnlyZeros (g2buffer bytes) = false
    · rw [if_pos hC] at h
      exact absurd h (by simp)
    rw [if_neg hC] at h
    push_neg at hC
    obtain ⟨hc0, hzt⟩ := hC
    have hz : hasOnlyZeros (g2buffer bytes) = true := by
      cases hcase : hasOnlyZeros (g2buffer bytes)
      · exact absurd hcase hzt
      · rfl
    left
    refine ⟨canonical_inf_bytes_g2 hA hc0 hz, ?_⟩
    simpa using h.symm
  rw [if_neg hB] at h
  by_cases hD : bytes.headD 0 &&& 0xc0 ≠ 0x80
  · rw [if_pos hD] at h
    exact absurd h (by simp)
  rw [if_neg hD] at h
  push_neg at hD
  by_cases hE : hasOnlyZeros (g2buffer bytes) = true
  · rw [if_pos hE] at h
    exact absurd h (by simp)
  rw [if_neg hE] at h
  have hz : hasOnlyZeros (g2buffer bytes) = false := by
    cases hcase : hasOnlyZeros (g2buffer bytes)
    · rfl
    · exact absurd hcase hE
  right
  refine ⟨hA, hW, hD, hz, ?_⟩
  simpa using h.symm

theorem g1_wfbuf_of {bytes : List Nat} (hl : bytes.length = 48)
    (hz : hasOnlyZeros (0x00 :: mask0 bytes) = false) :
    G1WfBuf ((if bytes.headD 0 &&& 0x20 ≠ 0 then (0x03 : Nat) else 0x02) ::
      mask0 bytes) := by
  rw [hasOnlyZeros_zero_cons] at hz
  refine ⟨?_, ?_, ?_, ?_, ?_⟩
  · simp only [List.headD_cons]
    by_cases hc : bytes.headD 0 &&& 0x20 ≠ 0
    · rw [if_pos hc]
      exact Or.inr rfl
    · rw [if_neg hc]
      exact Or.inl rfl
  · simp only [List.length_cons, mask0_length, hl]
  · simp only [List.tail_cons, mask0_length, hl]
  · simp only [List.tail_cons]
    exact mask0_headD_lt bytes
  · simp only [List.tail_cons]
    exact hz

theorem g2_wfbuf_of {bytes : List Nat} (hl : bytes.length = 96)
    (hw : bytes.getD 48 0 &&& 0xe0 = 0) (hb : ∀ a ∈ bytes, a < 256)
    (hz : hasOnlyZeros (g2buffer bytes) = false) :
    G2WfBuf ((if bytes.headD 0 &&& 0x20 ≠ 0 then (0x03 : Nat) else 0x02) ::
      (bytes.drop 48 ++ mask0 (bytes.take 48))) := by
  unfold g2buffer at hz
  rw [hasOnlyZeros_zero_cons] at hz
  have hdlen : (bytes.drop 48).length = 48 := by
    rw [List.length_drop, hl]
  have hdne : bytes.drop 48 ≠ [] := by
    intro hnil
    rw [hnil] at hdlen
    exact absurd hdlen (by decide)
  have hg48lt : bytes.getD 48 0 < 256 := by
    have h48 : 48 < bytes.length := by rw [hl]; decide
    rw [List.getD_eq_getElem bytes 0 h48]
    exact hb _ (List.getElem_mem h48)
  refine ⟨?_, ?_, ?_, ?_, ?_, ?_⟩
  · simp only [List.headD_cons]
    by_cases hc : bytes.headD 0 &&& 0x20 ≠ 0
    · rw [if_pos hc]
      exact Or.inr rfl
    · rw [if_neg hc]
      exact Or.inl rfl
  · simp only [List.length_cons, List.length_append, mask0_length,
      List.length_take, List.length_drop, hl]
    decide
  · simp only [List.tail_cons, List.length_append, mask0_length,
      List.length_take, List.length_drop, hl]
    decide
  · simp only [List.tail_cons]
    rw [headD_append_ne_nil _ hdne, headD_drop]
    exact ande0_lt _ hg48lt hw
  · simp only [List.tail_cons]
    rw [drop_append_len hdlen]
    exact mask0_headD_lt _
  · simp only [List.tail_cons]
    exact hz

theorem g1_decode_inj_aux {P : Type} (prov : G1Provider P)
    (hinj : ∀ b₁ b₂, G1WfBuf b₁ → G1WfBuf b₂ →
      prov.read_bin b₁ = prov.read_bin b₂ → b₁ = b₂)
    (hne : ∀ b, G1WfBuf b → prov.read_bin b ≠ prov.defaultPoint)
    {x₁ x₂ : List Nat} {e₁ e₂ : G1Element P}
    (hb₁ : ∀ a ∈ x₁, a < 256) (hb₂ : ∀ a ∈ x₂, a < 256)
    (h₁ : G1FromBytesUnchecked prov x₁ = .ok e₁)
    (h₂ : G1FromBytesUnchecked prov x₂ = .ok e₂)
    (heq : e₁ = e₂) : x₁ = x₂ := by
  rcases g1_decode_ok_cases prov h₁ with ⟨hx₁, he₁⟩ | ⟨hl₁, hh₁, hz₁, he₁⟩ <;>
    rcases g1_decode_ok_cases prov h₂ with ⟨hx₂, he₂⟩ | ⟨hl₂, hh₂, hz₂, he₂⟩
  · rw [hx₁, hx₂]
  · exfalso
    rw [he₁, he₂] at heq
    have : prov.read_bin _ = prov.defaultPoint := (G1Element.mk.injEq _ _).mp heq.symm
    exact hne _ (g1_wfbuf_of hl₂ hz₂) this
  · exfalso
    rw [he₁, he₂] at heq
    have : prov.read_bin _ = prov.defaultPoint := (G1Element.mk.injEq _ _).mp heq
    exact hne _ (g1_wfbuf_of hl₁ hz₁) this
  · rw [he₁, he₂] at heq
    have hread : prov.read_bin
        ((if x₁.headD 0 &&& 0x20 ≠ 0 then (0x03 : Nat) else 0x02) :: mask0 x₁) =
        prov.read_bin
        ((if x₂.headD 0 &&& 0x20 ≠ 0 then (0x03 : Nat) else 0x02) :: mask0 x₂) :=
      (G1Element.mk.injEq _ _).mp heq
    have hbufs := hinj _ _ (g1_wfbuf_of hl₁ hz₁) (g1_wfbuf_of hl₂ hz₂) hread
    have hif : (if x₁.headD 0 &&& 0x20 ≠ 0 then (0x03 : Nat) else 0x02) =
        (if x₂.headD 0 &&& 0x20 ≠ 0 then (0x03 : Nat) else 0x02) :=
      (List.cons.injEq _ _ _ _).mp hbufs |>.1
    have hmask : mask0 x₁ = mask0 x₂ :=
      (List.cons.injEq _ _ _ _).mp hbufs |>.2
    cases x₁ with
    | nil => exact absurd hl₁ (by decide)
    | cons a₁ t₁ =>
      cases x₂ with
      | nil => exact absurd hl₂ (by decide)
      | cons a₂ t₂ =>
        rw [mask0_cons, mask0_cons] at hmask
        have hlow : a₁ &&& 0x1f = a₂ &&& 0x1f :=
          (List.cons.injEq _ _ _ _).mp hmask |>.1
        have ht : t₁ = t₂ := (List.cons.injEq _ _ _ _).mp hmask |>.2
        simp only [List.headD_cons] at hh₁ hh₂ hif
        have ha : a₁ = a₂ :=
          byte_head_eq (hb₁ a₁ (List.mem_cons_self a₁ t₁))
            (hb₂ a₂ (List.mem_cons_self a₂ t₂)) hh₁ hh₂ hlow hif
        rw [ha, ht]

theorem g2_decode_inj_aux {Q : Type} (prov : G2Provider Q)
    (hinj : ∀ b₁ b₂, G2WfBuf b₁ → G2WfBuf b₂ →
      prov.read_bin b₁ = prov.read_bin b₂ → b₁ = b₂)
    (hne : ∀ b, G2WfBuf b → prov.read_bin b ≠ prov.defaultPoint)
    {y₁ y₂ : List Nat} {f₁ f₂ : G2Element Q}
    (hb₁ : ∀ a ∈ y₁, a < 256) (hb₂ : ∀ a ∈ y₂, a < 256)
    (h₁ : G2FromBytesUnchecked prov y₁ = .ok f₁)
    (h₂ : G2FromBytesUnchecked prov y₂ = .ok f₂)
    (heq : f₁ = f₂) : y₁ = y₂ := by
  rcases g2_decode_ok_cases prov h₁ with ⟨hx₁, he₁⟩ | ⟨hl₁, hw₁, hh₁, hz₁, he₁⟩ <;>
    rcases g2_decode_ok_cases prov h₂ with ⟨hx₂, he₂⟩ | ⟨hl₂, hw₂, hh₂, hz₂, he₂⟩
  · rw [hx₁, hx₂]
  · exfalso
    rw [he₁, he₂] at heq
    have : prov.read_bin _ = prov.defaultPoint := (G2Element.mk.injEq _ _).mp heq.symm
    exact hne _ (g2_wfbuf_of hl₂ hw₂ hb₂ hz₂) this
  · exfalso
    rw [he₁, he₂] at heq
    have : prov.read_bin _ = prov.defaultPoint := (G2Element.mk.injEq _ _).mp heq
    exact hne _ (g2_wfbuf_of hl₁ hw₁ hb₁ hz₁) this
  · rw [he₁, he₂] at heq
    have hread := (G2Element.mk.injEq _ _).mp heq
    have hbufs := hinj _ _ (g2_wfbuf_of hl₁ hw₁ hb₁ hz₁)
      (g2_wfbuf_of hl₂ hw₂ hb₂ hz₂) hread
    have hif : (if y₁.headD 0 &&& 0x20 ≠ 0 then (0x03 : Nat) else 0x02) =
        (if y₂.headD 0 &&& 0x20 ≠ 0 then (0x03 : Nat) else 0x02) :=
      (List.cons.injEq _ _ _ _).mp hbufs |>.1
    have happ : y₁.drop 48 ++ mask0 (y₁.take 48) =
        y₂.drop 48 ++ mask0 (y₂.take 48) :=
      (List.cons.injEq _ _ _ _).mp hbufs |>.2
    have hdlen : (y₁.drop 48).length = (y₂.drop 48).length := by
      rw [List.length_drop, List.length_drop, hl₁, hl₂]
    obtain ⟨hdrop, hmask⟩ := List.append_inj happ hdlen
    cases y₁ with
    | nil => exact absurd hl₁ (by decide)
    | cons a₁ t₁ =>
      cases y₂ with
      | nil => exact absurd hl₂ (by decide)
      | cons a₂ t₂ =>
        have htake₁ : List.take 48 (a₁ :: t₁) = a₁ :: t₁.take 47 := rfl
        have htake₂ : List.take 48 (a₂ :: t₂) = a₂ :: t₂.take 47 := rfl
        have hdrop₁ : List.drop 48 (a₁ :: t₁) = t₁.drop 47 := rfl
        have hdrop₂ : List.drop 48 (a₂ :: t₂) = t₂.drop 47 := rfl
        rw [htake₁, htake₂, mask0_cons, mask0_cons] at hmask
        have hlow : a₁ &&& 0x1f = a₂ &&& 0x1f :=
          (List.cons.injEq _ _ _ _).mp hmask |>.1
        have httake : t₁.take 47 = t₂.take 47 :=
          (List.cons.injEq _ _ _ _).mp hmask |>.2
        rw [hdrop₁, hdrop₂] at hdrop
        simp only [List.headD_cons] at hh₁ hh₂ hif
        have ha : a₁ = a₂ :=
          byte_head_eq (hb₁ a₁ (List.mem_cons_self a₁ t₁))
            (hb₂ a₂ (List.mem_cons_self a₂ t₂)) hh₁ hh₂ hlow hif
        have ht : t₁ = t₂ := by
          rw [← List.take_append_drop 47 t₁, ← List.take_append_drop 47 t₂,
            httake, hdrop]
        rw [ha, ht]

theorem g1_decode_canonical_inf {P : Type} (prov : G1Provider P) :
    G1FromBytesUnchecked prov (0xc0 :: List.replicate 47 0) =
      .ok ⟨prov.defaultPoint⟩ := by
  unfold G1FromBytesUnchecked
  rw [if_neg (by decide), if_pos (by decide), if_neg (by decide)]

theorem g1_decode_flagged2 {P : Type} (prov : G1Provider P) (th : Nat)
    (tt : List Nat) (hth : th < 0x20) (htt : tt.length = 47)
    (hz : hasOnlyZeros (th :: tt) = false) :
    G1FromBytesUnchecked prov ((th ||| 0x80) :: tt) =
      .ok ⟨prov.read_bin (0x02 :: th :: tt)⟩ := by
  have hf := flagBits th hth
  have c1 : ¬(((th ||| 0x80) :: tt).length ≠ 48) := by simp [htt]
  have c2 : ¬(((th ||| 0x80) :: tt).headD 0 &&& 0xc0 = 0xc0) := by
    simp only [List.headD_cons]
    rw [hf.1]
    decide
  have c3 : ¬(((th ||| 0x80) :: tt).headD 0 &&& 0xc0 ≠ 0x80) := by
    simp only [List.headD_cons]
    rw [hf.1]
    decide
  have c4 : ¬(hasOnlyZeros (0x00 :: mask0 ((th ||| 0x80) :: tt)) = true) := by
    rw [mask0_cons, hf.2.2.1, hasOnlyZeros_zero_cons, hz]
    decide
  unfold G1FromBytesUnchecked
  rw [if_neg c1, if_neg c2, if_neg c3, if_neg c4]
  have c5 : ¬(((th ||| 0x80) :: tt).headD 0 &&& 0x20 ≠ 0) := by
    simp only [List.headD_cons]
    rw [hf.2.2.2.2.1]
    decide
  rw [if_neg c5, mask0_cons, hf.2.2.1]

theorem g1_decode_flagged3 {P : Type} (prov : G1Provider P) (th : Nat)
    (tt : List Nat) (hth : th < 0x20) (htt : tt.length = 47)
    (hz : hasOnlyZeros (th :: tt) = false) :
    G1FromBytesUnchecked prov ((th ||| 0x20 ||| 0x80) :: tt) =
      .ok ⟨prov.read_bin (0x03 :: th :: tt)⟩ := by
  have hf := flagBits th hth
  have c1 : ¬(((th ||| 0x20 ||| 0x80) :: tt).length ≠ 48) := by simp [htt]
  have c2 : ¬(((th ||| 0x20 ||| 0x80) :: tt).headD 0 &&& 0xc0 = 0xc0) := by
    simp only [List.headD_cons]
    rw [hf.2.1]
    decide
  have c3 : ¬(((th ||| 0x20 ||| 0x80) :: tt).headD 0 &&& 0xc0 ≠ 0x80) := by
    simp only [List.headD_cons]
    rw [hf.2.1]
    decide
  have c4 : ¬(hasOnlyZeros (0x00 :: mask0 ((th ||| 0x20 ||| 0x80) :: tt)) = true) := by
    rw [mask0_cons, hf.2.2.2.1, hasOnlyZeros_zero_cons, hz]
    decide
  unfold G1FromBytesUnchecked
  rw [if_neg c1, if_neg c2, if_neg c3, if_neg c4]
  have c5 : ((th ||| 0x20 ||| 0x80) :: tt).headD 0 &&& 0x20 ≠ 0 := by
    simp only [List.headD_cons]
    exact hf.2.2.2.2.2.1
  rw [if_pos c5, mask0_cons, hf.2.2.2.1]

theorem g1_roundtrip_aux {P : Type} (prov : G1Provider P) (h : G1ProviderOK prov)
    (e : G1Element P) (hv : G1IsValid prov e = true) :
    G1FromBytes prov (G1Serialize prov e) = .ok e := by
  have hlen := h.len e.p
  rcases h.head_cases e.p with h0 | hc
  · have hp : e.p = prov.defaultPoint := (h.inf_iff e.p).mp h0
    have he : e = ⟨prov.defaultPoint⟩ := by
      cases e
      simpa using hp
    have hser : G1Serialize prov e = 0xc0 :: List.replicate 47 0 := by
      unfold G1Serialize
      rw [if_pos h0]
    rw [hser]
    unfold G1FromBytes
    rw [g1_decode_canonical_inf]
    have hval : G1IsValid prov (⟨prov.defaultPoint⟩ : G1Element P) = true := by
      rw [← he]
      exact hv
    show (if G1IsValid prov ⟨prov.defaultPoint⟩ = true then
        Except.ok (⟨prov.defaultPoint⟩ : G1Element P)
      else Except.error DecodeError.InvalidPoint) = Except.ok e
    rw [hval, if_pos rfl, he]
  · have hne0 : (prov.write_bin e.p).headD 0 ≠ 0 := by
      rcases hc with h2 | h3
      · rw [h2]; decide
      · rw [h3]; decide
    have hwne : prov.write_bin e.p ≠ [] := by
      intro hnil
      rw [hnil] at hlen
      exact absurd hlen (by decide)
    have htlen : (prov.write_bin e.p).tail.length = 48 := by
      rw [List.length_tail, hlen]
    obtain ⟨th, tt, hteq⟩ : ∃ a l, (prov.write_bin e.p).tail = a :: l := by
      match hcase : (prov.write_bin e.p).tail with
      | [] =>
        rw [hcase] at htlen
        exact absurd htlen (by decide)
      | a :: l => exact ⟨a, l, rfl⟩
    have hthlt : th < 0x20 := by
      have := h.top3 e.p hne0
      rw [hteq] at this
      simpa using this
    have hzz : hasOnlyZeros (th :: tt) = false := by
      rw [← hteq]
      exact h.nonzero e.p hne0
    have httlen : tt.length = 47 := by
      rw [hteq] at htlen
      simpa using htlen
    have hwcons : prov.write_bin e.p = (prov.write_bin e.p).headD 0 :: th :: tt := by
      conv_lhs => rw [← cons_headD_tail hwne]
      rw [hteq]
    have hfinish : ∀ ele : G1Element P, ele = e →
        (match Except.ok ele with
          | Except.error err => Except.error err
          | Except.ok ele =>
            if G1IsValid prov ele = true then Except.ok ele
            else Except.error DecodeError.InvalidPoint) = Except.ok e := by
      intro ele hele
      subst hele
      show (if G1IsValid prov ele = true then Except.ok ele
        else Except.error DecodeError.InvalidPoint) = Except.ok ele
      rw [hv, if_pos rfl]
    rcases hc with h2 | h3
    · have hser : G1Serialize prov e = (th ||| 0x80) :: tt := by
        unfold G1Serialize
        rw [if_neg (by rw [h2]; decide), if_neg (by rw [h2]; decide), hteq,
          setBit0_cons]
      unfold G1FromBytes
      rw [hser, g1_decode_flagged2 prov th tt hthlt httlen hzz]
      refine hfinish _ ?_
      have hread : prov.read_bin (0x02 :: th :: tt) = e.p := by
        conv_lhs =>
          rw [show (0x02 : Nat) = (prov.write_bin e.p).headD 0 from h2.symm,
            ← hwcons]
        exact h.rt e.p
      rw [hread]
    · have hser : G1Serialize prov e = (th ||| 0x20 ||| 0x80) :: tt := by
        unfold G1Serialize
        rw [if_neg (by rw [h3]; decide), if_pos h3, hteq, setBit0_cons,
          setBit0_cons]
      unfold G1FromBytes
      rw [hser, g1_decode_flagged3 prov th tt hthlt httlen hzz]
      refine hfinish _ ?_
      have hread : prov.read_bin (0x03 :: th :: tt) = e.p := by
        conv_lhs =>
          rw [show (0x03 : Nat) = (prov.write_bin e.p).headD 0 from h3.symm,
            ← hwcons]
        exact h.rt e.p
      rw [hread]

theorem g2_decode_canonical_inf {Q : Type} (prov : G2Provider Q) :
    G2FromBytesUnchecked prov (0xc0 :: List.replicate 95 0) =
      .ok ⟨prov.defaultPoint⟩ := by
  unfold G2FromBytesUnchecked
  rw [if_neg (by decide), if_neg (by decide), if_pos (by decide),
    if_neg (by decide)]

theorem g2_decode_flagged2 {Q : Type} (prov : G2Provider Q) (f : List Nat)
    (sh : Nat) (st : List Nat) (hf48 : f.length = 48) (hfh : f.headD 0 < 0x20)
    (hsh : sh < 0x20) (hst : st.length = 47)
    (hz : hasOnlyZeros (f ++ sh :: st) = false) :
    G2FromBytesUnchecked prov (((sh ||| 0x80) :: st) ++ f) =
      .ok ⟨prov.read_bin (0x02 :: (f ++ sh :: st))⟩ := by
  obtain ⟨q1, q2, q3, q4, q5, q6, q7, q8, q9, q10, q11, q12, q13⟩ :=
    flagBits sh hsh
  obtain ⟨r1, r2, r3, r4, r5, r6, r7, r8, r9, r10, r11, r12, r13⟩ :=
    flagBits (f.headD 0) hfh
  have hl1 : ((sh ||| 0x80) :: st).length = 48 := by simp [hst]
  have hbytes_take : (((sh ||| 0x80) :: st) ++ f).take 48 = (sh ||| 0x80) :: st :=
    take_append_len hl1
  have hbytes_drop : (((sh ||| 0x80) :: st) ++ f).drop 48 = f :=
    drop_append_len hl1
  have hbuf : g2buffer (((sh ||| 0x80) :: st) ++ f) = 0x00 :: (f ++ sh :: st) := by
    unfold g2buffer
    rw [hbytes_take, hbytes_drop, mask0_cons, q3]
  have c1 : ¬((((sh ||| 0x80) :: st) ++ f).length ≠ 96) := by simp [hst, hf48]
  have c2 : ¬((((sh ||| 0x80) :: st) ++ f).getD 48 0 &&& 0xe0 ≠ 0) := by
    rw [getD_append_len hl1, r10]
    decide
  have c3 : ¬((((sh ||| 0x80) :: st) ++ f).headD 0 &&& 0xc0 = 0xc0) := by
    simp only [List.cons_append, List.headD_cons]
    rw [q1]
    decide
  have c4 : ¬((((sh ||| 0x80) :: st) ++ f).headD 0 &&& 0xc0 ≠ 0x80) := by
    simp only [List.cons_append, List.headD_cons]
    rw [q1]
    decide
  have c5 : ¬(hasOnlyZeros (g2buffer (((sh ||| 0x80) :: st) ++ f)) = true) := by
    rw [hbuf, hasOnlyZeros_zero_cons, hz]
    decide
  have c6 : ¬((((sh ||| 0x80) :: st) ++ f).headD 0 &&& 0x20 ≠ 0) := by
    simp only [List.cons_append, List.headD_cons]
    rw [q5]
    decide
  unfold G2FromBytesUnchecked
  rw [if_neg c1, if_neg c2, if_neg c3, if_neg c4, if_neg c5, if_neg c6,
    hbytes_drop, hbytes_take, mask0_cons, q3]

theorem g2_decode_flagged3 {Q : Type} (prov : G2Provider Q) (f : List Nat)
    (sh : Nat) (st : List Nat) (hf48 : f.length = 48) (hfh : f.headD 0 < 0x20)
    (hsh : sh < 0x20) (hst : st.length = 47)
    (hz : hasOnlyZeros (f ++ sh :: st) = false) :
    G2FromBytesUnchecked prov (((sh ||| 0xa0) :: st) ++ f) =
      .ok ⟨prov.read_bin (0x03 :: (f ++ sh :: st))⟩ := by
  obtain ⟨q1, q2, q3, q4, q5, q6, q7, q8, q9, q10, q11, q12, q13⟩ :=
    flagBits sh hsh
  obtain ⟨r1, r2, r3, r4, r5, r6, r7, r8, r9, r10, r11, r12, r13⟩ :=
    flagBits (f.headD 0) hfh
  have hl1 : ((sh ||| 0xa0) :: st).length = 48 := by simp [hst]
  have hbytes_take : (((sh ||| 0xa0) :: st) ++ f).take 48 = (sh ||| 0xa0) :: st :=
    take_append_len hl1
  have hbytes_drop : (((sh ||| 0xa0) :: st) ++ f).drop 48 = f :=
    drop_append_len hl1
  have hbuf : g2buffer (((sh ||| 0xa0) :: st) ++ f) = 0x00 :: (f ++ sh :: st) := by
    unfold g2buffer
    rw [hbytes_take, hbytes_drop, mask0_cons, q8]
  have c1 : ¬((((sh ||| 0xa0) :: st) ++ f).length ≠ 96) := by simp [hst, hf48]
  have c2 : ¬((((sh ||| 0xa0) :: st) ++ f).getD 48 0 &&& 0xe0 ≠ 0) := by
    rw [getD_append_len hl1, r10]
    decide
  have c3 : ¬((((sh ||| 0xa0) :: st) ++ f).headD 0 &&& 0xc0 = 0xc0) := by
    simp only [List.cons_append, List.headD_cons]
    rw [q7]
    decide
  have c4 : ¬((((sh ||| 0xa0) :: st) ++ f).headD 0 &&& 0xc0 ≠ 0x80) := by
    simp only [List.cons_append, List.headD_cons]
    rw [q7]
    decide
  have c5 : ¬(hasOnlyZeros (g2buffer (((sh ||| 0xa0) :: st) ++ f)) = true) := by
    rw [hbuf, hasOnlyZeros_zero_cons, hz]
    decide
  have c6 : (((sh ||| 0xa0) :: st) ++ f).headD 0 &&& 0x20 ≠ 0 := by
    simp only [List.cons_append, List.headD_cons]
    exact q9
  unfold G2FromBytesUnchecked
  rw [if_neg c1, if_neg c2, if_neg c3, if_neg c4, if_neg c5, if_pos c6,
    hbytes_drop, hbytes_take, mask0_cons, q8]

theorem g2_roundtrip_aux {Q : Type} (prov : G2Provider Q) (h : G2ProviderOK prov)
    (e : G2Element Q) (hv : G2IsValid prov e = true) :
    G2FromBytes prov (G2Serialize prov e) = .ok e := by
  have hlen := h.len e.q
  rcases h.head_cases e.q with h0 | hc
  · have hp : e.q = prov.defaultPoint := (h.inf_iff e.q).mp h0
    have he : e = ⟨prov.defaultPoint⟩ := by
      cases e
      simpa using hp
    have hser : G2Serialize prov e = 0xc0 :: List.replicate 95 0 := by
      unfold G2Serialize
      rw [if_pos h0]
    rw [hser]
    unfold G2FromBytes
    rw [g2_decode_canonical_inf]
    have hval : G2IsValid prov (⟨prov.defaultPoint⟩ : G2Element Q) = true := by
      rw [← he]
      exact hv
    show (if G2IsValid prov ⟨prov.defaultPoint⟩ = true then
        Except.ok (⟨prov.defaultPoint⟩ : G2Element Q)
      else Except.error DecodeError.InvalidPoint) = Except.ok e
    rw [hval, if_pos rfl, he]
  · have hne0 : (prov.write_bin e.q).headD 0 ≠ 0 := by
      rcases hc with h2 | h3
      · rw [h2]; decide
      · rw [h3]; decide
    have hwne : prov.write_bin e.q ≠ [] := by
      intro hnil
      rw [hnil] at hlen
      exact absurd hlen (by decide)
    have htlen : (prov.write_bin e.q).tail.length = 96 := by
      rw [List.length_tail, hlen]
    have hf48 : ((prov.write_bin e.q).tail.take 48).length = 48 := by
      rw [List.length_take, htlen]
      decide
    have hslen : ((prov.write_bin e.q).tail.drop 48).length = 48 := by
      rw [List.length_drop, htlen]
    obtain ⟨sh, st, hseq⟩ : ∃ a l, (prov.write_bin e.q).tail.drop 48 = a :: l := by
      match hcase : (prov.write_bin e.q).tail.drop 48 with
      | [] =>
        rw [hcase] at hslen
        exact absurd hslen (by decide)
      | a :: l => exact ⟨a, l, rfl⟩
    have hsh : sh < 0x20 := by
      have := h.top3b e.q hne0
      rw [hseq] at this
      simpa using this
    have hfh : ((prov.write_bin e.q).tail.take 48).headD 0 < 0x20 := by
      rw [headD_take48]
      exact h.top3a e.q hne0
    have hst : st.length = 47 := by
      rw [hseq] at hslen
      simpa using hslen
    have huapp : (prov.write_bin e.q).tail.take 48 ++ sh :: st =
        (prov.write_bin e.q).tail := by
      rw [← hseq]
      exact List.take_append_drop 48 (prov.write_bin e.q).tail
    have hz : hasOnlyZeros ((prov.write_bin e.q).tail.take 48 ++ sh :: st) = false := by
      rw [huapp]
      exact h.nonzero e.q hne0
    have hwcons : prov.write_bin e.q =
        (prov.write_bin e.q).headD 0 :: (prov.write_bin e.q).tail :=
      (cons_headD_tail hwne).symm
    have hfinish : ∀ ele : G2Element Q, ele = e →
        (match Except.ok ele with
          | Except.error err => Except.error err
          | Except.ok ele =>
            if G2IsValid prov ele = true then Except.ok ele
            else Except.error DecodeError.InvalidPoint) = Except.ok e := by
      intro ele hele
      subst hele
      show (if G2IsValid prov ele = true then Except.ok ele
        else Except.error DecodeError.InvalidPoint) = Except.ok ele
      rw [hv, if_pos rfl]
    rcases hc with h2 | h3
    · have hser : G2Serialize prov e =
          ((sh ||| 0x80) :: st) ++ (prov.write_bin e.q).tail.take 48 := by
        unfold G2Serialize
        rw [if_neg (by rw [h2]; decide), if_neg (by rw [h2]; decide), hseq,
          mask0_cons, and31_of_lt hsh, setBit0_cons, mask0_of_headD_lt hfh]
      unfold G2FromBytes
      rw [hser, g2_decode_flagged2 prov _ sh st hf48 hfh hsh hst hz]
      refine hfinish _ ?_
      have hread : prov.read_bin
          (0x02 :: ((prov.write_bin e.q).tail.take 48 ++ sh :: st)) = e.q := by
        conv_lhs =>
          rw [huapp,
            show (0x02 : Nat) = (prov.write_bin e.q).headD 0 from h2.symm,
            ← hwcons]
        exact h.rt e.q
      rw [hread]
    · have hser : G2Serialize prov e =
          ((sh ||| 0xa0) :: st) ++ (prov.write_bin e.q).tail.take 48 := by
        unfold G2Serialize
        rw [if_neg (by rw [h3]; decide), if_pos h3, hseq,
          mask0_cons, and31_of_lt hsh, setBit0_cons, mask0_of_headD_lt hfh]
      unfold G2FromBytes
      rw [hser, g2_decode_flagged3 prov _ sh st hf48 hfh hsh hst hz]
      refine hfinish _ ?_
      have hread : prov.read_bin
          (0x03 :: ((prov.write_bin e.q).tail.take 48 ++ sh :: st)) = e.q := by
        conv_lhs =>
          rw [huapp,
            show (0x03 : Nat) = (prov.write_bin e.q).headD 0 from h3.symm,
            ← hwcons]
        exact h.rt e.q
      rw [hread]

theorem gt_roundtrip_aux {R : Type} (prov : GTProvider R)
    (hTlen : ∀ r, (prov.write_bin r).length = 576)
    (hTrt : ∀ r, prov.read_bin (prov.write_bin r) = r)
    (e : GTElement R) (hv : prov.in_group e.r = true) :
    GTFromBytes prov (GTSerialize prov e) = .ok e := by
  have hu : GTFromBytesUnchecked prov (prov.write_bin e.r) =
      .ok ⟨prov.read_bin (prov.write_bin e.r)⟩ := by
    unfold GTFromBytesUnchecked
    rw [if_neg (fun hc => hc (hTlen e.r))]
  unfold GTFromBytes GTSerialize
  rw [hu, hTrt]
  show (if prov.in_group e.r = true then Except.ok (⟨e.r⟩ : GTElement R)
    else Except.error DecodeError.NotInTargetSubgroup) = Except.ok e
  rw [hv, if_pos rfl]

theorem toyG1_read_eval {c : Nat} {t : List Nat} (hc : c = 0x02 ∨ c = 0x03)
    (ht : G1WfTail t) : toyG1.read_bin (c :: t) = some ((c == 0x03), ⟨t, ht⟩) := by
  show (if c = 0 then (none : ToyP1)
      else if h : G1WfTail t then some ((c == 0x03), ⟨t, h⟩) else none) =
    some ((c == 0x03), ⟨t, ht⟩)
  rw [if_neg (by rcases hc with h | h <;> rw [h] <;> decide), dif_pos ht]

theorem toyG2_read_eval {c : Nat} {t : List Nat} (hc : c = 0x02 ∨ c = 0x03)
    (ht : G2WfTail t) : toyG2.read_bin (c :: t) = some ((c == 0x03), ⟨t, ht⟩) := by
  show (if c = 0 then (none : ToyP2)
      else if h : G2WfTail t then some ((c == 0x03), ⟨t, h⟩) else none) =
    some ((c == 0x03), ⟨t, ht⟩)
  rw [if_neg (by rcases hc with h | h <;> rw [h] <;> decide), dif_pos ht]

theorem toyG1_read_inj : ∀ b₁ b₂, G1WfBuf b₁ → G1WfBuf b₂ →
    toyG1.read_bin b₁ = toyG1.read_bin b₂ → b₁ = b₂ := by
  intro b₁ b₂ h₁ h₂ heq
  obtain ⟨hc₁, hl₁, ht₁⟩ := h₁
  obtain ⟨hc₂, hl₂, ht₂⟩ := h₂
  cases b₁ with
  | nil => exact absurd hl₁ (by decide)
  | cons c₁ t₁ =>
    cases b₂ with
    | nil => exact absurd hl₂ (by decide)
    | cons c₂ t₂ =>
      simp only [List.headD_cons] at hc₁ hc₂
      simp only [List.tail_cons] at ht₁ ht₂
      rw [toyG1_read_eval hc₁ ht₁, toyG1_read_eval hc₂ ht₂] at heq
      simp only [Option.some.injEq, Prod.mk.injEq, Subtype.mk.injEq] at heq
      obtain ⟨hcc, htt⟩ := heq
      have hc : c₁ = c₂ := by
        rcases hc₁ with h | h <;> rcases hc₂ with g | g
        · rw [h, g]
        · rw [h, g] at hcc
          exact absurd hcc (by decide)
        · rw [h, g] at hcc
          exact absurd hcc (by decide)
        · rw [h, g]
      rw [hc, htt]

theorem toyG1_read_ne : ∀ b, G1WfBuf b → toyG1.read_bin b ≠ toyG1.defaultPoint := by
  intro b hb
  obtain ⟨hc, hl, ht⟩ := hb
  cases b with
  | nil => exact absurd hl (by decide)
  | cons c t =>
    simp only [List.headD_cons] at hc
    simp only [List.tail_cons] at ht
    rw [toyG1_read_eval hc ht]
    exact fun habs => Option.noConfusion habs

theorem toyG2_read_inj : ∀ b₁ b₂, G2WfBuf b₁ → G2WfBuf b₂ →
    toyG2.read_bin b₁ = toyG2.read_bin b₂ → b₁ = b₂ := by
  intro b₁ b₂ h₁ h₂ heq
  obtain ⟨hc₁, hl₁, ht₁⟩ := h₁
  obtain ⟨hc₂, hl₂, ht₂⟩ := h₂
  cases b₁ with
  | nil => exact absurd hl₁ (by decide)
  | cons c₁ t₁ =>
    cases b₂ with
    | nil => exact absurd hl₂ (by decide)
    | cons c₂ t₂ =>
      simp only [List.headD_cons] at hc₁ hc₂
      simp only [List.tail_cons] at ht₁ ht₂
      rw [toyG2_read_eval hc₁ ht₁, toyG2_read_eval hc₂ ht₂] at heq
      simp only [Option.some.injEq, Prod.mk.injEq, Subtype.mk.injEq] at heq
      obtain ⟨hcc, htt⟩ := heq
      have hc : c₁ = c₂ := by
        rcases hc₁ with h | h <;> rcases hc₂ with g | g
        · rw [h, g]
        · rw [h, g] at hcc
          exact absurd hcc (by decide)
        · rw [h, g] at hcc
          exact absurd hcc (by decide)
        · rw [h, g]
      rw [hc, htt]

theorem toyG2_read_ne : ∀ b, G2WfBuf b → toyG2.read_bin b ≠ toyG2.defaultPoint := by
  intro b hb
  obtain ⟨hc, hl, ht⟩ := hb
  cases b with
  | nil => exact absurd hl (by decide)
  | cons c t =>
    simp only [List.headD_cons] at hc
    simp only [List.tail_cons] at ht
    rw [toyG2_read_eval hc ht]
    exact fun habs => Option.noConfusion habs

/-- C3: for G1 and G2, the unchecked decoder is injective on accepted byte
strings — relative to the provider's `read_bin` being injective on the
well-formed buffers the decoder hands it and never returning the default
(infinity) payload on them: two byte strings of bytes below 256 that both
decode successfully to equal elements are themselves equal, so every element
has at most one accepted encoding. -/
theorem decode_canonical_injective {P Q : Type} (prov1 : G1Provider P)
    (prov2 : G2Provider Q)
    (hinj1 : ∀ b₁ b₂, G1WfBuf b₁ → G1WfBuf b₂ →
      prov1.read_bin b₁ = prov1.read_bin b₂ → b₁ = b₂)
    (hne1 : ∀ b, G1WfBuf b → prov1.read_bin b ≠ prov1.defaultPoint)
    (hinj2 : ∀ b₁ b₂, G2WfBuf b₁ → G2WfBuf b₂ →
      prov2.read_bin b₁ = prov2.read_bin b₂ → b₁ = b₂)
    (hne2 : ∀ b, G2WfBuf b → prov2.read_bin b ≠ prov2.defaultPoint)
    (x₁ x₂ y₁ y₂ : List Nat) (e₁ e₂ : G1Element P) (f₁ f₂ : G2Element Q)
    (hbx₁ : ∀ a ∈ x₁, a < 256) (hbx₂ : ∀ a ∈ x₂, a < 256)
    (hby₁ : ∀ a ∈ y₁, a < 256) (hby₂ : ∀ a ∈ y₂, a < 256)
    (hd₁ : G1FromBytesUnchecked prov1 x₁ = .ok e₁)
    (hd₂ : G1FromBytesUnchecked prov1 x₂ = .ok e₂)
    (hg₁ : G2FromBytesUnchecked prov2 y₁ = .ok f₁)
    (hg₂ : G2FromBytesUnchecked prov2 y₂ = .ok f₂)
    (hee : e₁ = e₂) (hff : f₁ = f₂) :
    x₁ = x₂ ∧ y₁ = y₂ :=
  ⟨g1_decode_inj_aux prov1 hinj1 hne1 hbx₁ hbx₂ hd₁ hd₂ hee,
   g2_decode_inj_aux prov2 hinj2 hne2 hby₁ hby₂ hg₁ hg₂ hff⟩

/-- Witness for C3 at the toy providers and concrete decodable inputs. -/
theorem decode_canonical_injective_witness :
    (∀ a ∈ c3G1bytes, a < 256) ∧ (∀ a ∈ c3G2bytes, a < 256) ∧
    G1FromBytesUnchecked toyG1 c3G1bytes =
      .ok ⟨toyG1.read_bin (0x02 :: mask0 c3G1bytes)⟩ ∧
    G2FromBytesUnchecked toyG2 c3G2bytes =
      .ok ⟨toyG2.read_bin
        (0x02 :: (c3G2bytes.drop 48 ++ mask0 (c3G2bytes.take 48)))⟩ ∧
    (c3G1bytes = c3G1bytes ∧ c3G2bytes = c3G2bytes) :=
  ⟨by decide, by decide, by decide, by decide,
   decode_canonical_injective toyG1 toyG2 toyG1_read_inj toyG1_read_ne
     toyG2_read_inj toyG2_read_ne c3G1bytes c3G1bytes c3G2bytes c3G2bytes
     ⟨toyG1.read_bin (0x02 :: mask0 c3G1bytes)⟩
     ⟨toyG1.read_bin (0x02 :: mask0 c3G1bytes)⟩
     ⟨toyG2.read_bin (0x02 :: (c3G2bytes.drop 48 ++ mask0 (c3G2bytes.take 48)))⟩
     ⟨toyG2.read_bin (0x02 :: (c3G2bytes.drop 48 ++ mask0 (c3G2bytes.take 48)))⟩
     (by decide) (by decide) (by decide) (by decide)
     (by decide) (by decide) (by decide) (by decide) rfl rfl⟩

/-- C1: for every validly-constructed element of each of the three types —
relative to the stated correctness assumptions on the external provider's
read/write primitives, and with validity meaning the element passes the
type's own validity check (CheckValid for G1/G2, target-subgroup membership
for GT) — decoding the element's serialization through the checked path
returns an element equal to it under native-payload equality. -/
theorem roundtrip_serialize_decode {P Q R : Type} (prov1 : G1Provider P)
    (prov2 : G2Provider Q) (provT : GTProvider R)
    (h1 : G1ProviderOK prov1) (h2 : G2ProviderOK prov2)
    (hTlen : ∀ r, (provT.write_bin r).length = 576)
    (hTrt : ∀ r, provT.read_bin (provT.write_bin r) = r)
    (e1 : G1Element P) (e2 : G2Element Q) (e3 : GTElement R)
    (hv1 : G1IsValid prov1 e1 = true) (hv2 : G2IsValid prov2 e2 = true)
    (hv3 : provT.in_group e3.r = true) :
    G1FromBytes prov1 (G1Serialize prov1 e1) = .ok e1 ∧
    G2FromBytes prov2 (G2Serialize prov2 e2) = .ok e2 ∧
    GTFromBytes provT (GTSerialize provT e3) = .ok e3 :=
  ⟨g1_roundtrip_aux prov1 h1 e1 hv1, g2_roundtrip_aux prov2 h2 e2 hv2,
   gt_roundtrip_aux provT hTlen hTrt e3 hv3⟩

/-- Witness for C1 at the toy providers and concrete toy elements. -/
theorem roundtrip_serialize_decode_witness :
    G1IsValid toyG1 toyG1Elt = true ∧ G2IsValid toyG2 toyG2Elt = true ∧
    toyGT.in_group toyGTElt.r = true ∧
    (G1FromBytes toyG1 (G1Serialize toyG1 toyG1Elt) = .ok toyG1Elt ∧
     G2FromBytes toyG2 (G2Serialize toyG2 toyG2Elt) = .ok toyG2Elt ∧
     GTFromBytes toyGT (GTSerialize toyGT toyGTElt) = .ok toyGTElt) :=
  ⟨by decide, by decide, by decide,
   roundtrip_serialize_decode toyG1 toyG2 toyGT toyG1_ok toyG2_ok toyGT_len
     toyGT_rt toyG1Elt toyG2Elt toyGTElt (by decide) (by decide) (by decide)⟩

/-- C9: the pairing invoked from either wrapper surface computes the same
underlying pairing with the fixed argument order, short-group argument first:
`P.Pair(Q)` and `Q.Pair(P)` both equal `P & Q`, whose payload is the
provider's pairing applied to the G1 point first and the G2 point second;
reversing the wrapper call does not reverse the underlying argument order. -/
theorem pairing_order_fixed {P Q R : Type} (pp : PairingProvider P Q R)
    (a : G1Element P) (b : G2Element Q) :
    G1Pair pp a b = pairOp pp a b ∧ G2Pair pp b a = pairOp pp a b ∧
    pairOp pp a b = ⟨pp.pair a.p b.q⟩ :=
  ⟨rfl, rfl, rfl⟩

/-- C2 (code bug): G2 operator== is not a pure byte comparison.  For every
pair of operands the source's `memcpy(&a.q, &b.q, ...) == 0` overwrites the
left operand's payload with the right one's and returns false, so `a == a`
is false; on concrete distinct toy elements the left operand is visibly
mutated into the right one. -/
theorem g2_eq_memcpy_bug :
    (∀ (Q : Type) (a b : G2Element Q), G2eqOp a b = (⟨b.q⟩, false)) ∧
    (G2eqOp toyG2Elt toyG2Elt).2 = false ∧
    (G2eqOp toyG2Elt toyG2EltB).1 = toyG2EltB ∧
    toyG2Elt ≠ toyG2EltB := by
  refine ⟨fun Q a b => rfl, rfl, rfl, by decide⟩

/-- C7 (code bug): Generator() for G1 and G2 discards the result of
`ele.FromNative(*gen)` and therefore returns the default-constructed element
rather than an element whose payload is the provider's generator constant;
on the toy providers, whose generator constant differs from the default
payload, the returned element is not the generator. -/
theorem generator_discards_native :
    (∀ (P : Type) (prov : G1Provider P), G1Generator prov = ⟨prov.defaultPoint⟩) ∧
    (∀ (Q : Type) (prov : G2Provider Q), G2Generator prov = ⟨prov.defaultPoint⟩) ∧
    G1Generator toyG1 ≠ ⟨toyG1.generator⟩ ∧
    G2Generator toyG2 ≠ ⟨toyG2.generator⟩ := by
  refine ⟨fun P prov => rfl, fun Q prov => rfl, by decide, by decide⟩

/-- C10 (code bug): Negate discards the result of `ans.FromNative(p)` and
negates the default payload instead, so its result does not depend on the
receiver; on the toy providers, adding a non-identity element to its Negate
returns the element itself rather than the group identity. -/
theorem negate_discards_native :
    (∀ (P : Type) (prov : G1Provider P) (e : G1Element P),
      G1Negate prov e = ⟨prov.cneg prov.defaultPoint⟩) ∧
    (∀ (Q : Type) (prov : G2Provider Q) (e : G2Element Q),
      G2Negate prov e = ⟨prov.cneg prov.defaultPoint⟩) ∧
    G1addOp toyG1 toyG1Elt (G1Negate toyG1 toyG1Elt) = toyG1Elt ∧
    toyG1Elt ≠ (⟨toyG1.defaultPoint⟩ : G1Element ToyP1) ∧
    G2addOp toyG2 toyG2Elt (G2Negate toyG2 toyG2Elt) = toyG2Elt ∧
    toyG2Elt ≠ (⟨toyG2.defaultPoint⟩ : G2Element ToyP2) := by
  refine ⟨fun P prov e => rfl, fun Q prov e => rfl, rfl, by decide, rfl, by decide⟩

/-- C5: every input whose length differs from the wire size (48 for G1, 96
for G2, 576 for GT) is rejected with InvalidSize, on the unchecked and the
checked decode path alike. -/
theorem decode_size_strict {P Q R : Type} (prov1 : G1Provider P)
    (prov2 : G2Provider Q) (provT : GTProvider R) (b1 b2 b3 : List Nat)
    (h1 : b1.length ≠ 48) (h2 : b2.length ≠ 96) (h3 : b3.length ≠ 576) :
    G1FromBytesUnchecked prov1 b1 = .error .InvalidSize ∧
    G1FromBytes prov1 b1 = .error .InvalidSize ∧
    G2FromBytesUnchecked prov2 b2 = .error .InvalidSize ∧
    G2FromBytes prov2 b2 = .error .InvalidSize ∧
    GTFromBytesUnchecked provT b3 = .error .InvalidSize ∧
    GTFromBytes provT b3 = .error .InvalidSize := by
  have e1 : G1FromBytesUnchecked prov1 b1 = .error .InvalidSize := by
    unfold G1FromBytesUnchecked
    rw [if_pos h1]
  have e2 : G2FromBytesUnchecked prov2 b2 = .error .InvalidSize := by
    unfold G2FromBytesUnchecked
    rw [if_pos h2]
  have e3 : GTFromBytesUnchecked provT b3 = .error .InvalidSize := by
    unfold GTFromBytesUnchecked
    rw [if_pos h3]
  refine ⟨e1, ?_, e2, ?_, e3, ?_⟩
  · unfold G1FromBytes
    rw [e1]
  · unfold G2FromBytes
    rw [e2]
  · unfold GTFromBytes
    rw [e3]

/-- Witness for C5 at the empty input for all three types. -/
theorem decode_size_strict_witness :
    ([] : List Nat).length ≠ 48 ∧ ([] : List Nat).length ≠ 96 ∧
    ([] : List Nat).length ≠ 576 ∧
    (G1FromBytesUnchecked toyG1 [] = .error .InvalidSize ∧
     G1FromBytes toyG1 [] = .error .InvalidSize ∧
     G2FromBytesUnchecked toyG2 [] = .error .InvalidSize ∧
     G2FromBytes toyG2 [] = .error .InvalidSize ∧
     GTFromBytesUnchecked toyGT [] = .error .InvalidSize ∧
     GTFromBytes toyGT [] = .error .InvalidSize) :=
  ⟨by decide, by decide, by decide,
   decode_size_strict toyG1 toyG2 toyGT [] [] [] (by decide) (by decide) (by decide)⟩

/-- C8: on a 576-byte input, the unchecked GT decode always succeeds with the
raw deserialized element (no membership check), and the checked decode
succeeds exactly when the deserialized element passes the target-subgroup
test, failing with NotInTargetSubgroup otherwise. -/
theorem gt_decode_membership {R : Type} (prov : GTProvider R) (bt bf : List Nat)
    (ht : bt.length = 576) (hf : bf.length = 576)
    (hgt : prov.in_group (prov.read_bin bt) = true)
    (hgf : prov.in_group (prov.read_bin bf) = false) :
    GTFromBytesUnchecked prov bt = .ok ⟨prov.read_bin bt⟩ ∧
    GTFromBytesUnchecked prov bf = .ok ⟨prov.read_bin bf⟩ ∧
    GTFromBytes prov bt = .ok ⟨prov.read_bin bt⟩ ∧
    GTFromBytes prov bf = .error .NotInTargetSubgroup := by
  have u1 : GTFromBytesUnchecked prov bt = .ok ⟨prov.read_bin bt⟩ := by
    unfold GTFromBytesUnchecked
    rw [if_neg (fun hc => hc ht)]
  have u2 : GTFromBytesUnchecked prov bf = .ok ⟨prov.read_bin bf⟩ := by
    unfold GTFromBytesUnchecked
    rw [if_neg (fun hc => hc hf)]
  refine ⟨u1, u2, ?_, ?_⟩
  · unfold GTFromBytes
    rw [u1]
    simp [hgt]
  · unfold GTFromBytes
    rw [u2]
    simp [hgf]

/-- Witness for C8 at concrete member and non-member 576-byte inputs. -/
theorem gt_decode_membership_witness :
    gtBytesIn.length = 576 ∧ gtBytesOut.length = 576 ∧
    toyGT.in_group (toyGT.read_bin gtBytesIn) = true ∧
    toyGT.in_group (toyGT.read_bin gtBytesOut) = false ∧
    (GTFromBytesUnchecked toyGT gtBytesIn = .ok ⟨toyGT.read_bin gtBytesIn⟩ ∧
     GTFromBytesUnchecked toyGT gtBytesOut = .ok ⟨toyGT.read_bin gtBytesOut⟩ ∧
     GTFromBytes toyGT gtBytesIn = .ok ⟨toyGT.read_bin gtBytesIn⟩ ∧
     GTFromBytes toyGT gtBytesOut = .error .NotInTargetSubgroup) :=
  ⟨by decide, by decide, by decide, by decide,
   gt_decode_membership toyGT gtBytesIn gtBytesOut
     (by decide) (by decide) (by decide) (by decide)⟩

/-- Counterexample to C4 as stated.  A 48-byte G1 input with the infinity
flag (bit 6 of byte 0) set, the compression flag clear and a nonzero payload
fails with MalformedHeader, not NonCanonicalInfinity; and a 96-byte G2 input
with both top flags of byte 0 set and a nonzero payload whose byte 48 has a
set top bit fails with MalformedSecondComponent, not NonCanonicalInfinity. -/
theorem c4_counterexample :
    G1FromBytesUnchecked toyG1 c4G1bytes = .error .MalformedHeader ∧
    G1FromBytesUnchecked toyG1 c4G1bytes ≠ .error .NonCanonicalInfinity ∧
    G2FromBytesUnchecked toyG2 c4G2bytes = .error .MalformedSecondComponent ∧
    G2FromBytesUnchecked toyG2 c4G2bytes ≠ .error .NonCanonicalInfinity := by
  refine ⟨by decide, by decide, by decide, by decide⟩

/-- C4 as amended: the NonCanonicalInfinity failure requires the top two
bits of byte 0 both set (compression and infinity flags, `0xc0` mask) rather
than bit 6 alone, and the input not to be the canonical infinity encoding;
for G2 it additionally requires the top three bits of wire byte 48 to be
clear, since that check precedes the infinity check and fails with
MalformedSecondComponent otherwise. -/
theorem noncanonical_infinity_rejected {P Q : Type} (prov1 : G1Provider P)
    (prov2 : G2Provider Q) (b1 b2 b3 : List Nat)
    (h1l : b1.length = 48) (h1f : b1.headD 0 &&& 0xc0 = 0xc0)
    (h1nc : b1.headD 0 ≠ 0xc0 ∨ hasOnlyZeros (0x00 :: mask0 b1) = false)
    (h2l : b2.length = 96) (h2s : b2.getD 48 0 &&& 0xe0 = 0)
    (h2f : b2.headD 0 &&& 0xc0 = 0xc0)
    (h2nc : b2.headD 0 ≠ 0xc0 ∨ hasOnlyZeros (g2buffer b2) = false)
    (h3l : b3.length = 96) (h3s : b3.getD 48 0 &&& 0xe0 ≠ 0) :
    G1FromBytesUnchecked prov1 b1 = .error .NonCanonicalInfinity ∧
    G2FromBytesUnchecked prov2 b2 = .error .NonCanonicalInfinity ∧
    G2FromBytesUnchecked prov2 b3 = .error .MalformedSecondComponent := by
  refine ⟨?_, ?_, ?_⟩
  · unfold G1FromBytesUnchecked
    rw [if_neg (fun hc => hc h1l), if_pos h1f, if_pos h1nc]
  · unfold G2FromBytesUnchecked
    rw [if_neg (fun hc => hc h2l), if_neg (fun hc => hc h2s), if_pos h2f,
      if_pos h2nc]
  · unfold G2FromBytesUnchecked
    rw [if_neg (fun hc => hc h3l), if_pos h3s]

/-- Witness for the amended C4 at concrete non-canonical inputs. -/
theorem noncanonical_infinity_rejected_witness :
    (0xc0 :: 0x01 :: List.replicate 46 0 : List Nat).length = 48 ∧
    (0xc0 :: 0x01 :: List.replicate 94 0 : List Nat).length = 96 ∧
    c4G2bytes.getD 48 0 &&& 0xe0 ≠ 0 ∧
    (G1FromBytesUnchecked toyG1 (0xc0 :: 0x01 :: List.replicate 46 0) =
      .error .NonCanonicalInfinity ∧
     G2FromBytesUnchecked toyG2 (0xc0 :: 0x01 :: List.replicate 94 0) =
      .error .NonCanonicalInfinity ∧
     G2FromBytesUnchecked toyG2 c4G2bytes = .error .MalformedSecondComponent) :=
  ⟨by decide, by decide, by decide,
   noncanonical_infinity_rejected toyG1 toyG2
     (0xc0 :: 0x01 :: List.replicate 46 0) (0xc0 :: 0x01 :: List.replicate 94 0)
     c4G2bytes (by decide) (by decide) (by decide) (by decide) (by decide)
     (by decide) (by decide) (by decide) (by decide)⟩

/-- C6: serializing the G1 identity (the default payload) yields exactly 48
bytes, byte 0 equal to 0xc0 and the rest zero; decoding that byte string via
the checked path returns the identity; and the identity passes the validity
check for any on-curve predicate whatsoever, because infinity is
special-cased as valid. -/
theorem g1_identity_canonical {P : Type} (prov : G1Provider P)
    (hw : (prov.write_bin prov.defaultPoint).headD 0 = 0)
    (hinf : prov.is_inf prov.defaultPoint = true) :
    G1Serialize prov ⟨prov.defaultPoint⟩ = 0xc0 :: List.replicate 47 0 ∧
    (G1Serialize prov ⟨prov.defaultPoint⟩).length = 48 ∧
    (G1Serialize prov ⟨prov.defaultPoint⟩).headD 0 = 0xc0 ∧
    G1FromBytes prov (0xc0 :: List.replicate 47 0) = .ok ⟨prov.defaultPoint⟩ ∧
    (∀ oc, G1IsValid { prov with on_curve := oc } ⟨prov.defaultPoint⟩ = true) := by
  have hser : G1Serialize prov ⟨prov.defaultPoint⟩ = 0xc0 :: List.replicate 47 0 := by
    unfold G1Serialize
    rw [if_pos hw]
  have hdec : G1FromBytesUnchecked prov (0xc0 :: List.replicate 47 0) =
      .ok ⟨prov.defaultPoint⟩ := by
    unfold G1FromBytesUnchecked
    rw [if_neg (by decide), if_pos (by decide), if_neg (by decide)]
  refine ⟨hser, by rw [hser]; decide, by rw [hser]; rfl, ?_, ?_⟩
  · unfold G1FromBytes
    rw [hdec]
    have hval : G1IsValid prov ⟨prov.defaultPoint⟩ = true := by
      unfold G1IsValid
      rw [hinf]
      rfl
    show (if G1IsValid prov ⟨prov.defaultPoint⟩ = true then
        Except.ok (⟨prov.defaultPoint⟩ : G1Element P)
      else Except.error DecodeError.InvalidPoint) = Except.ok ⟨prov.defaultPoint⟩
    rw [hval]
    rfl
  · intro oc
    unfold G1IsValid
    show (if prov.is_inf prov.defaultPoint then true else oc prov.defaultPoint) = true
    rw [hinf]
    rfl

/-- Witness for C6 at the toy provider. -/
theorem g1_identity_canonical_witness :
    (toyG1.write_bin toyG1.defaultPoint).headD 0 = 0 ∧
    toyG1.is_inf toyG1.defaultPoint = true ∧
    (G1Serialize toyG1 ⟨toyG1.defaultPoint⟩ = 0xc0 :: List.replicate 47 0 ∧
     (G1Serialize toyG1 ⟨toyG1.defaultPoint⟩).length = 48 ∧
     (G1Serialize toyG1 ⟨toyG1.defaultPoint⟩).headD 0 = 0xc0 ∧
     G1FromBytes toyG1 (0xc0 :: List.replicate 47 0) = .ok ⟨toyG1.defaultPoint⟩ ∧
     (∀ oc, G1IsValid { toyG1 with on_curve := oc } ⟨toyG1.defaultPoint⟩ = true)) :=
  ⟨by decide, by decide, g1_identity_canonical toyG1 (by decide) (by decide)⟩

end BLS
